import Mathlib

/-!
Shallow embedding of the member-verification cog: status classification of
guild members, the kick-confirmation gate, batch action executors, the
reconciliation orchestrator, the reminder ping cycle and its initial-delay
computation.  All timestamps are integers (seconds); durations in days are
converted through `timedelta_days`.
-/

namespace Verification

/-- Snapshot of one guild member: identifier, bot flag, join timestamp in
seconds (absent when unknown) and the set of currently assigned role ids. -/
structure Member where
  id : ℕ
  bot : Bool
  joined_at : Option ℤ
  roles : Finset ℕ
deriving DecidableEq

/-- Amount of days after which non-Developers receive the Unverified role. -/
def UNVERIFIED_AFTER : ℤ := 3

/-- Amount of days after which non-Developers get kicked from the guild. -/
def KICKED_AFTER : ℤ := 30

/-- Number in range 0..1 determining the percentage of unverified users that
are safe to be kicked from the guild in one batch. -/
def KICK_CONFIRMATION_THRESHOLD : ℚ := 0

/-- Seconds in a timedelta of `d` days. -/
def timedelta_days (d : ℤ) : ℤ := d * 86400

/-- One iteration of the member loop of `_check_members`: skip bots and
members with unknown join date, skip members holding a role beyond the
unverified/default pair, then dispatch on time since join. -/
def check_step (now : ℤ) (uR dR : ℕ) (acc : Finset Member × Finset Member)
    (m : Member) : Finset Member × Finset Member :=
  if m.bot then acc
  else
    match m.joined_at with
    | none => acc
    | some joined_at =>
      if (m.roles \ {uR, dR}).Nonempty then acc
      else
        if now - joined_at > timedelta_days KICKED_AFTER then
          (acc.1, insert m acc.2)
        else if now - joined_at > timedelta_days UNVERIFIED_AFTER ∧ uR ∉ m.roles then
          (insert m acc.1, acc.2)
        else acc

/-- `_check_members`: partition the snapshot into the set to be given the
Unverified role (first component) and the set to be kicked (second
component).  `uR` is the Unverified role id, `dR` the guild default role. -/
def check_members (ms : List Member) (now : ℤ) (uR dR : ℕ) :
    Finset Member × Finset Member :=
  ms.foldl (check_step now uR dR) (∅, ∅)

/-- Reference predicate, written from the spec text: an eligible unverified
member whose elapsed time strictly exceeds `removalAfter` needs removal. -/
def needsRemovalSpec (now : ℤ) (uR dR : ℕ) (m : Member) : Prop :=
  m.bot = false ∧ ∃ j, m.joined_at = some j ∧ m.roles ⊆ {uR, dR} ∧
    now - j > timedelta_days KICKED_AFTER

/-- Reference predicate, written from the spec text: an eligible unverified
member whose elapsed time is at most `removalAfter` but strictly exceeds
`warningAfter`, and who does not already hold the pending role, needs the
warning role. -/
def needsWarningSpec (now : ℤ) (uR dR : ℕ) (m : Member) : Prop :=
  m.bot = false ∧ ∃ j, m.joined_at = some j ∧ m.roles ⊆ {uR, dR} ∧
    now - j ≤ timedelta_days KICKED_AFTER ∧
    now - j > timedelta_days UNVERIFIED_AFTER ∧ uR ∉ m.roles

/-- State of the guild after one reconciliation cycle whose actions all
succeeded: kicked members are gone from the snapshot and warned members
have been given the Unverified role. -/
def apply_cycle (ms : List Member) (now : ℤ) (uR dR : ℕ) : List Member :=
  let W := (check_members ms now uR dR).1
  let K := (check_members ms now uR dR).2
  (ms.filter fun m => m ∉ K).map fun m =>
    if m ∈ W then { m with roles := insert uR m.roles } else m

/-- Outcome of the kick-confirmation gate, as the spec names it. -/
inductive ConfirmationDecision
  | AutoApproved
  | HumanApproved
  | HumanDenied
  | TimedOut
deriving DecidableEq

/-- Whether a decision permits executing the kick batch; `_verify_kick`
returns exactly this boolean. -/
def ConfirmationDecision.permitted : ConfirmationDecision → Bool
  | .AutoApproved => true
  | .HumanApproved => true
  | .HumanDenied => false
  | .TimedOut => false

/-- Approval reaction emoji constant. -/
def incident_actioned : String := "incident_actioned"

/-- Denial reaction emoji constant. -/
def incident_unactioned : String := "incident_unactioned"

/-- The two reaction options attached to the confirmation prompt. -/
def options : List String := [incident_actioned, incident_unactioned]

/-- Confirmation wait timeout: seconds, i.e. 5 minutes. -/
def timeout : ℚ := 60 * 5

/-- A `reaction_add` event: the reacted-to message id, the emoji, whether the
reacting user is a bot, and arrival time in seconds after the prompt. -/
structure Reaction where
  msgId : ℕ
  emoji : String
  userBot : Bool
  time : ℚ
deriving DecidableEq

/-- The `check` predicate of `_verify_kick`: the reaction targets the
confirmation prompt, uses one of the two options, and comes from a human. -/
def reaction_check (promptId : ℕ) (r : Reaction) : Bool :=
  r.msgId == promptId && options.contains r.emoji && !r.userBot

/-- `bot.wait_for("reaction_add", check, timeout)`: the first qualifying
reaction among the events arriving strictly before the timeout. -/
def wait_for_reaction (promptId : ℕ) (events : List Reaction) : Option Reaction :=
  (events.filter fun r => r.time < timeout).find? (reaction_check promptId)

/-- Observable outcome of one `_verify_kick` run: the decision, whether a
confirmation prompt was posted, whether its reactions were cleared, and
whether the prompt was edited with the final choice. -/
structure GateResult where
  decision : ConfirmationDecision
  promptPosted : Bool
  reactionsCleared : Bool
  promptEdited : Bool
deriving DecidableEq

/-- `_verify_kick`: decide whether kicking `n` members out of a guild of `N`
members may proceed.  When `N = 0` the percentage computation raises
`ZeroDivisionError`, modelled as `none`.  When the percentage is below the
threshold the batch is auto-approved without a prompt; otherwise a prompt is
posted and the first qualifying human reaction (or the timeout) decides.
On timeout the reactions are cleared by the `finally` block but the early
`return False` skips the final prompt edit. -/
def verify_kick (n N : ℕ) (threshold : ℚ) (promptId : ℕ)
    (events : List Reaction) : Option GateResult :=
  if N = 0 then none
  else
    if (n : ℚ) / (N : ℚ) < threshold then
      some ⟨.AutoApproved, false, false, false⟩
    else
      match wait_for_reaction promptId events with
      | none => some ⟨.TimedOut, true, true, false⟩
      | some r =>
        if r.emoji = incident_actioned then
          some ⟨.HumanApproved, true, true, true⟩
        else
          some ⟨.HumanDenied, true, true, true⟩

/-- Shared loop body of `_kick_members` and `_give_role`: a successful
request bumps the success count, a failed one records the HTTP status in the
set of bad statuses; the loop always continues to the next member. -/
def batch_step (outcome : Member → Option ℕ) (acc : ℕ × Finset ℕ)
    (m : Member) : ℕ × Finset ℕ :=
  match outcome m with
  | none => (acc.1 + 1, acc.2)
  | some status => (acc.1, insert status acc.2)

/-- `_kick_members`: kick each member of the batch independently; `outcome m`
is `none` when the kick request succeeds and `some status` when it fails
with an HTTP status code.  Returns the success count and the set of
distinct failure statuses. -/
def kick_members (members : List Member) (outcome : Member → Option ℕ) :
    ℕ × Finset ℕ :=
  members.foldl (batch_step outcome) (0, ∅)

/-- `_give_role`: assign the role to each member of the batch independently,
with the same success/failure aggregation as `_kick_members`. -/
def give_role (members : List Member) (outcome : Member → Option ℕ) :
    ℕ × Finset ℕ :=
  members.foldl (batch_step outcome) (0, ∅)

/-- Kick-branch summary line of the reconciliation cycle report. -/
inductive KickReport
  | noUsers
  | notAuthorized (n : ℕ)
  | kicked (ok total : ℕ)
deriving DecidableEq

/-- Observable outcome of one `update_unverified_members` cycle. -/
structure CycleReport where
  gateInvoked : Bool
  kicksExecuted : Bool
  kickReport : KickReport
  roleAssignedCount : Option ℕ
deriving DecidableEq

/-- `update_unverified_members`: one reconciliation cycle.  Classify the
snapshot, execute the warning-role batch when non-empty, and guard the kick
batch behind `verify_kick`; a gate failure (`ZeroDivisionError`) propagates
as `none`, a denial or timeout yields a normal "not authorized" report. -/
def update_unverified_members (ms : List Member) (now : ℤ) (uR dR : ℕ)
    (N : ℕ) (threshold : ℚ) (promptId : ℕ) (events : List Reaction)
    (roleOutcome kickOutcome : Member → Option ℕ) : Option CycleReport :=
  let for_role := (check_members ms now uR dR).1
  let for_kick := (check_members ms now uR dR).2
  let roleCount : Option ℕ :=
    if for_role = ∅ then none
    else some (give_role (ms.dedup.filter fun m => m ∈ for_role) roleOutcome).1
  if for_kick = ∅ then
    some ⟨false, false, .noUsers, roleCount⟩
  else
    match verify_kick for_kick.card N threshold promptId events with
    | none => none
    | some gate =>
      if gate.decision.permitted then
        some ⟨true, true,
          .kicked (kick_members (ms.dedup.filter fun m => m ∈ for_kick)
            kickOutcome).1 for_kick.card,
          roleCount⟩
      else
        some ⟨true, false, .notAuthorized for_kick.card, roleCount⟩

/-- Hours to wait between sending the reminder message. -/
def REMINDER_FREQUENCY : ℚ := 28

/-- `snowflake_time`: creation time, in seconds, derived from a message id
(Discord epoch milliseconds plus the id's upper timestamp bits). -/
def snowflake_time (id : ℕ) : ℚ :=
  (1420070400000 + ((id / 4194304 : ℕ) : ℚ)) / 1000

/-- `_before_first_ping`: seconds to sleep before the first reminder fire.
No cached reminder id means zero delay; otherwise sleep for the reminder
frequency minus the time already elapsed since the cached message was
created, clamped at zero. -/
def before_first_ping_delay (last_reminder : Option ℕ) (now : ℚ) : ℚ :=
  match last_reminder with
  | none => 0
  | some id => max (REMINDER_FREQUENCY * 3600 - (now - snowflake_time id)) 0

/-- Externally visible actions of one `ping_unverified` fire, in order. -/
inductive PingAction
  | deleteAttempt (id : ℕ) (ok : Bool)
  | sendReminder
  | storeSet (id : ℕ)
deriving DecidableEq

/-- `ping_unverified`: one reminder fire.  Delete the cached previous
reminder message best-effort (`deleteOk` records whether the delete request
succeeded; an HTTP failure is suppressed), then send the new reminder
(`sendResult = some id` on success, `none` when the send raises), and only
after a successful send overwrite the cache with the new message id.
Returns the cache state after the fire and the trace of actions. -/
def ping_unverified (store : Option ℕ) (deleteOk : Bool)
    (sendResult : Option ℕ) : Option ℕ × List PingAction :=
  let deleteTrace : List PingAction :=
    match store with
    | some prev => [.deleteAttempt prev deleteOk]
    | none => []
  match sendResult with
  | none => (store, deleteTrace ++ [.sendReminder])
  | some newId => (some newId, deleteTrace ++ [.sendReminder, .storeSet newId])

theorem check_step_fst (now : ℤ) (uR dR : ℕ)
    (acc : Finset Member × Finset Member) (x m : Member) :
    m ∈ (check_step now uR dR acc x).1 ↔
      m ∈ acc.1 ∨ (m = x ∧ needsWarningSpec now uR dR x) := by
  unfold check_step
  split
  next hb => simp [needsWarningSpec, hb]
  next hb =>
    have hb' : x.bot = false := by revert hb; cases x.bot <;> simp
    split
    next hj => simp [needsWarningSpec, hj]
    next j hj =>
      split
      next hr =>
        have hsub : ¬ x.roles ⊆ {uR, dR} := fun h =>
          Finset.not_nonempty_iff_eq_empty.mpr
            (Finset.sdiff_eq_empty_iff_subset.mpr h) hr
        simp [needsWarningSpec, hsub]
      next hr =>
        have hsub : x.roles ⊆ {uR, dR} := by
          rw [Finset.not_nonempty_iff_eq_empty] at hr
          exact Finset.sdiff_eq_empty_iff_subset.mp hr
        split
        next hk =>
          constructor
          · exact Or.inl
          · rintro (h | ⟨rfl, -, j', hj', -, hle', -, -⟩)
            · exact h
            · rw [hj] at hj'
              cases hj'
              exact absurd hle' (not_le.mpr hk)
        next hk =>
          split
          next hw =>
            rw [Finset.mem_insert]
            constructor
            · rintro (rfl | h)
              · exact Or.inr ⟨rfl, hb', j, hj, hsub, not_lt.mp hk, hw.1, hw.2⟩
              · exact Or.inl h
            · rintro (h | ⟨rfl, -⟩)
              · exact Or.inr h
              · exact Or.inl rfl
          next hw =>
            constructor
            · exact Or.inl
            · rintro (h | ⟨rfl, -, j', hj', -, -, hgt', hnr'⟩)
              · exact h
              · rw [hj] at hj'
                cases hj'
                exact absurd ⟨hgt', hnr'⟩ hw

theorem check_step_snd (now : ℤ) (uR dR : ℕ)
    (acc : Finset Member × Finset Member) (x m : Member) :
    m ∈ (check_step now uR dR acc x).2 ↔
      m ∈ acc.2 ∨ (m = x ∧ needsRemovalSpec now uR dR x) := by
  unfold check_step
  split
  next hb => simp [needsRemovalSpec, hb]
  next hb =>
    have hb' : x.bot = false := by revert hb; cases x.bot <;> simp
    split
    next hj => simp [needsRemovalSpec, hj]
    next j hj =>
      split
      next hr =>
        have hsub : ¬ x.roles ⊆ {uR, dR} := fun h =>
          Finset.not_nonempty_iff_eq_empty.mpr
            (Finset.sdiff_eq_empty_iff_subset.mpr h) hr
        simp [needsRemovalSpec, hsub]
      next hr =>
        have hsub : x.roles ⊆ {uR, dR} := by
          rw [Finset.not_nonempty_iff_eq_empty] at hr
          exact Finset.sdiff_eq_empty_iff_subset.mp hr
        split
        next hk =>
          rw [Finset.mem_insert]
          constructor
          · rintro (rfl | h)
            · exact Or.inr ⟨rfl, hb', j, hj, hsub, hk⟩
            · exact Or.inl h
          · rintro (h | ⟨rfl, -⟩)
            · exact Or.inr h
            · exact Or.inl rfl
        next hk =>
          have hnone : ∀ r : Finset Member × Finset Member, r.2 = acc.2 →
              (m ∈ r.2 ↔ m ∈ acc.2 ∨ (m = x ∧ needsRemovalSpec now uR dR x)) := by
            intro r hr2
            rw [hr2]
            constructor
            · exact Or.inl
            · rintro (h | ⟨rfl, -, j', hj', -, hgt'⟩)
              · exact h
              · rw [hj] at hj'
                cases hj'
                exact absurd hgt' hk
          split
          next hw => exact hnone (insert x acc.1, acc.2) rfl
          next hw => exact hnone acc rfl

theorem check_foldl (now : ℤ) (uR dR : ℕ) (ms : List Member)
    (acc : Finset Member × Finset Member) (m : Member) :
    (m ∈ (ms.foldl (check_step now uR dR) acc).1 ↔
      m ∈ acc.1 ∨ (m ∈ ms ∧ needsWarningSpec now uR dR m)) ∧
    (m ∈ (ms.foldl (check_step now uR dR) acc).2 ↔
      m ∈ acc.2 ∨ (m ∈ ms ∧ needsRemovalSpec now uR dR m)) := by
  induction ms generalizing acc with
  | nil => simp
  | cons x xs ih =>
    have hW : (m = x ∧ needsWarningSpec now uR dR x) ↔
        (m = x ∧ needsWarningSpec now uR dR m) := by
      constructor <;> rintro ⟨rfl, h⟩ <;> exact ⟨rfl, h⟩
    have hK : (m = x ∧ needsRemovalSpec now uR dR x) ↔
        (m = x ∧ needsRemovalSpec now uR dR m) := by
      constructor <;> rintro ⟨rfl, h⟩ <;> exact ⟨rfl, h⟩
    simp only [List.foldl_cons, List.mem_cons]
    constructor
    · rw [(ih (check_step now uR dR acc x)).1, check_step_fst, hW]
      tauto
    · rw [(ih (check_step now uR dR acc x)).2, check_step_snd, hK]
      tauto

theorem check_members_mem (ms : List Member) (now : ℤ) (uR dR : ℕ)
    (m : Member) :
    (m ∈ (check_members ms now uR dR).1 ↔
      m ∈ ms ∧ needsWarningSpec now uR dR m) ∧
    (m ∈ (check_members ms now uR dR).2 ↔
      m ∈ ms ∧ needsRemovalSpec now uR dR m) := by
  have h := check_foldl now uR dR ms (∅, ∅) m
  simpa [check_members] using h

/-- Claim C1: the classifier agrees with the reference definition — a bot,
a member with unknown join time, or one holding a role beyond the
baseline/pending pair lands in neither set; an eligible unverified member
is placed in the removal set iff elapsed strictly exceeds 30 days, and in
the warning set iff elapsed is at most 30 days, strictly exceeds 3 days,
and the pending role is not already held; at elapsed exactly equal to the
warning threshold no action results. -/
theorem check_members_matches_reference (ms : List Member) (now : ℤ)
    (uR dR : ℕ) (m : Member) :
    (m ∈ (check_members ms now uR dR).1 ↔
      m ∈ ms ∧ needsWarningSpec now uR dR m) ∧
    (m ∈ (check_members ms now uR dR).2 ↔
      m ∈ ms ∧ needsRemovalSpec now uR dR m) ∧
    (∀ j, m.joined_at = some j → now - j = timedelta_days UNVERIFIED_AFTER →
      m ∉ (check_members ms now uR dR).1 ∧ m ∉ (check_members ms now uR dR).2) := by
  refine ⟨(check_members_mem ms now uR dR m).1,
    (check_members_mem ms now uR dR m).2, ?_⟩
  intro j hj hboundary
  constructor
  · intro hW
    obtain ⟨-, j', hj', -, -, hgt, -⟩ :=
      ((check_members_mem ms now uR dR m).1.mp hW).2
    rw [hj] at hj'
    cases hj'
    rw [hboundary] at hgt
    exact lt_irrefl _ hgt
  · intro hK
    obtain ⟨-, j', hj', -, hgt⟩ :=
      ((check_members_mem ms now uR dR m).2.mp hK).2
    rw [hj] at hj'
    cases hj'
    rw [hboundary] at hgt
    have : timedelta_days UNVERIFIED_AFTER < timedelta_days KICKED_AFTER := by
      norm_num [timedelta_days, UNVERIFIED_AFTER, KICKED_AFTER]
    exact absurd hgt (not_lt.mpr (le_of_lt this))

/-- Witness for C1 at a concrete input: a non-bot member who joined exactly
3 days (259200 seconds) before `now` and holds only the default role is
classified into neither action set. -/
theorem check_members_matches_reference_witness :
    (⟨1, false, some 0, {2}⟩ : Member) ∉
      (check_members [⟨1, false, some 0, {2}⟩] 259200 1 2).1 ∧
    (⟨1, false, some 0, {2}⟩ : Member) ∉
      (check_members [⟨1, false, some 0, {2}⟩] 259200 1 2).2 :=
  (check_members_matches_reference [⟨1, false, some 0, {2}⟩] 259200 1 2
    ⟨1, false, some 0, {2}⟩).2.2 0 rfl
    (by norm_num [timedelta_days, UNVERIFIED_AFTER])

/-- Claim C2: one classification pass produces disjoint sets — the
intersection of the warning batch and the removal batch is empty. -/
theorem check_members_disjoint (ms : List Member) (now : ℤ) (uR dR : ℕ) :
    (check_members ms now uR dR).1 ∩ (check_members ms now uR dR).2 = ∅ := by
  rw [Finset.eq_empty_iff_forall_not_mem]
  intro m hm
  rw [Finset.mem_inter] at hm
  obtain ⟨hW, hK⟩ := hm
  obtain ⟨-, j, hj, -, hle, -, -⟩ :=
    ((check_members_mem ms now uR dR m).1.mp hW).2
  obtain ⟨-, j', hj', -, hgt⟩ :=
    ((check_members_mem ms now uR dR m).2.mp hK).2
  rw [hj] at hj'
  cases hj'
  exact absurd hgt (not_lt.mpr hle)

/-- Claim C9: the reconciliation cycle is idempotent — if the first cycle's
actions took effect (warned members now hold the pending role, kicked
members left the snapshot) and nothing else changes, a second classification
pass finds both batches empty. -/
theorem check_members_idempotent (ms : List Member) (now : ℤ) (uR dR : ℕ) :
    check_members (apply_cycle ms now uR dR) now uR dR = (∅, ∅) := by
  have key : ∀ m' ∈ apply_cycle ms now uR dR,
      ¬needsWarningSpec now uR dR m' ∧ ¬needsRemovalSpec now uR dR m' := by
    intro m' hm'
    simp only [apply_cycle, List.mem_map, List.mem_filter] at hm'
    obtain ⟨m, ⟨hms, hnk⟩, hmap⟩ := hm'
    have hnotK : m ∉ (check_members ms now uR dR).2 := by simpa using hnk
    by_cases hmW : m ∈ (check_members ms now uR dR).1
    · rw [if_pos hmW] at hmap
      obtain ⟨hbot, j, hj, hsub, hle, hgt, hnr⟩ :=
        ((check_members_mem ms now uR dR m).1.mp hmW).2
      subst hmap
      constructor
      · rintro ⟨-, j', hj', -, -, -, hnr'⟩
        exact hnr' (Finset.mem_insert_self uR m.roles)
      · rintro ⟨-, j', hj', -, hgt'⟩
        have hj'' : m.joined_at = some j' := hj'
        rw [hj] at hj''
        cases hj''
        exact absurd hgt' (not_lt.mpr hle)
    · rw [if_neg hmW] at hmap
      subst hmap
      constructor
      · intro hW
        exact hmW ((check_members_mem ms now uR dR m).1.mpr ⟨hms, hW⟩)
      · intro hK
        exact hnotK ((check_members_mem ms now uR dR m).2.mpr ⟨hms, hK⟩)
  have h1 : (check_members (apply_cycle ms now uR dR) now uR dR).1 = ∅ := by
    rw [Finset.eq_empty_iff_forall_not_mem]
    intro m hm
    obtain ⟨hmem, hW⟩ := (check_members_mem _ now uR dR m).1.mp hm
    exact (key m hmem).1 hW
  have h2 : (check_members (apply_cycle ms now uR dR) now uR dR).2 = ∅ := by
    rw [Finset.eq_empty_iff_forall_not_mem]
    intro m hm
    obtain ⟨hmem, hK⟩ := (check_members_mem _ now uR dR m).2.mp hm
    exact (key m hmem).2 hK
  rw [Prod.ext_iff]
  exact ⟨h1, h2⟩

/-- Claim C3: with a positive candidate count and member count, the gate
auto-approves immediately — posting no prompt — exactly when the kick
percentage is below the threshold; otherwise it posts a prompt and the
first qualifying reaction decides (approval token ⇒ HumanApproved, denial
token ⇒ HumanDenied, none in time ⇒ TimedOut); at the default threshold of
0 no non-empty batch is ever auto-approved. -/
theorem verify_kick_gate (n N : ℕ) (threshold : ℚ) (promptId : ℕ)
    (events : List Reaction) (hn : 0 < n) (hN : 0 < N) :
    ((n : ℚ) / (N : ℚ) < threshold →
      verify_kick n N threshold promptId events =
        some ⟨.AutoApproved, false, false, false⟩) ∧
    (¬((n : ℚ) / (N : ℚ) < threshold) →
      (wait_for_reaction promptId events = none →
        verify_kick n N threshold promptId events =
          some ⟨.TimedOut, true, true, false⟩) ∧
      (∀ r, wait_for_reaction promptId events = some r →
        verify_kick n N threshold promptId events =
          some (if r.emoji = incident_actioned then
              ⟨.HumanApproved, true, true, true⟩
            else ⟨.HumanDenied, true, true, true⟩))) ∧
    (∀ g, verify_kick n N KICK_CONFIRMATION_THRESHOLD promptId events = some g →
      g.decision ≠ .AutoApproved) := by
  have hN0 : N ≠ 0 := Nat.pos_iff_ne_zero.mp hN
  refine ⟨?_, ?_, ?_⟩
  · intro hlt
    rw [verify_kick, if_neg hN0, if_pos hlt]
  · intro hge
    constructor
    · intro hwait
      rw [verify_kick, if_neg hN0, if_neg hge, hwait]
    · intro r hwait
      rw [verify_kick, if_neg hN0, if_neg hge, hwait]
      dsimp only
      split <;> rfl
  · intro g hg
    have hnonneg : ¬((n : ℚ) / (N : ℚ) < KICK_CONFIRMATION_THRESHOLD) := by
      rw [KICK_CONFIRMATION_THRESHOLD]
      exact not_lt.mpr (div_nonneg (Nat.cast_nonneg n) (Nat.cast_nonneg N))
    rw [verify_kick, if_neg hN0, if_neg hnonneg] at hg
    rcases hwait : wait_for_reaction promptId events with - | r <;> rw [hwait] at hg <;>
      dsimp only at hg
    · injection hg with hg
      subst hg
      simp
    · by_cases he : r.emoji = incident_actioned
      · rw [if_pos he] at hg
        injection hg with hg
        subst hg
        simp
      · rw [if_neg he] at hg
        injection hg with hg
        subst hg
        simp

/-- Witness for C3 at a concrete input: 5 kicks out of 1000 members at a
threshold of 10 percent are auto-approved without a prompt. -/
theorem verify_kick_gate_witness :
    verify_kick 5 1000 (1 / 10) 7 [] =
      some ⟨.AutoApproved, false, false, false⟩ :=
  (verify_kick_gate 5 1000 (1 / 10) 7 [] (by norm_num) (by norm_num)).1
    (by norm_num)

/-- Claim C10: the gate divides by the total member count with no zero
guard — with zero members the division raises instead of producing a
decision, and with at least one member a decision is always produced. -/
theorem verify_kick_zero_guild (n : ℕ) (threshold : ℚ) (promptId : ℕ)
    (events : List Reaction) :
    verify_kick n 0 threshold promptId events = none ∧
    (∀ N, 0 < N →
      (verify_kick n N threshold promptId events).isSome = true) := by
  constructor
  · rw [verify_kick, if_pos rfl]
  · intro N hN
    have hN0 : N ≠ 0 := Nat.pos_iff_ne_zero.mp hN
    rw [verify_kick, if_neg hN0]
    split
    · rfl
    · split
      · rfl
      · split <;> rfl

/-- Witness for C10 at a concrete input: with one guild member the gate
produces a decision. -/
theorem verify_kick_zero_guild_witness :
    (verify_kick 5 1 0 7 []).isSome = true :=
  (verify_kick_zero_guild 5 0 7 []).2 1 (by norm_num)

/-- Counterexample to claim C8 as stated: at a concrete timeout outcome
(prompt posted, no qualifying reaction) the reactions are cleared by the
`finally` block but the early return skips the final prompt edit, so the
prompt is not edited to reflect the outcome. -/
theorem verify_kick_timeout_not_edited :
    verify_kick 1 10 KICK_CONFIRMATION_THRESHOLD 99 [] =
      some ⟨.TimedOut, true, true, false⟩ := by
  have hnonneg : ¬((1 : ℕ) : ℚ) / ((10 : ℕ) : ℚ) < KICK_CONFIRMATION_THRESHOLD := by
    rw [KICK_CONFIRMATION_THRESHOLD]
    norm_num
  rw [verify_kick, if_neg (by norm_num : (10 : ℕ) ≠ 0), if_neg hnonneg]
  rfl

/-- Claim C8 (amended): on every terminal outcome of a human-confirmation
wait the reactions are cleared, but the prompt is edited to reflect the
final outcome only on approval and denial — a timeout leaves the prompt
unedited. -/
theorem verify_kick_audit (n N : ℕ) (threshold : ℚ) (promptId : ℕ)
    (events : List Reaction) (g : GateResult)
    (hg : verify_kick n N threshold promptId events = some g)
    (hp : g.promptPosted = true) :
    g.reactionsCleared = true ∧
      (g.promptEdited = true ↔ g.decision ≠ .TimedOut) := by
  rw [verify_kick] at hg
  by_cases hN0 : N = 0
  · rw [if_pos hN0] at hg
    cases hg
  · rw [if_neg hN0] at hg
    by_cases hlt : (n : ℚ) / (N : ℚ) < threshold
    · rw [if_pos hlt] at hg
      injection hg with hg
      subst hg
      simp at hp
    · rw [if_neg hlt] at hg
      rcases hwait : wait_for_reaction promptId events with - | r <;>
        rw [hwait] at hg <;> dsimp only at hg
      · injection hg with hg
        subst hg
        simp
      · by_cases he : r.emoji = incident_actioned
        · rw [if_pos he] at hg
          injection hg with hg
          subst hg
          simp
        · rw [if_neg he] at hg
          injection hg with hg
          subst hg
          simp

/-- Witness for the amended C8 at a concrete input: a qualifying denial
reaction yields a denied outcome with reactions cleared and the prompt
edited. -/
theorem verify_kick_audit_witness :
    (⟨.HumanDenied, true, true, true⟩ : GateResult).reactionsCleared = true ∧
    ((⟨.HumanDenied, true, true, true⟩ : GateResult).promptEdited = true ↔
      (⟨.HumanDenied, true, true, true⟩ : GateResult).decision ≠ .TimedOut) :=
  verify_kick_audit 1 10 KICK_CONFIRMATION_THRESHOLD 99
    [⟨99, incident_unactioned, false, 0⟩] ⟨.HumanDenied, true, true, true⟩
    (by
      have hnonneg :
          ¬((1 : ℕ) : ℚ) / ((10 : ℕ) : ℚ) < KICK_CONFIRMATION_THRESHOLD := by
        rw [KICK_CONFIRMATION_THRESHOLD]
        norm_num
      have hwait : wait_for_reaction 99 [⟨99, incident_unactioned, false, 0⟩] =
          some ⟨99, incident_unactioned, false, 0⟩ := by
        rw [wait_for_reaction,
          List.filter_cons_of_pos (by
            rw [decide_eq_true_eq]
            show (0 : ℚ) < timeout
            rw [timeout]
            norm_num)]
        rfl
      rw [verify_kick, if_neg (by norm_num : (10 : ℕ) ≠ 0), if_neg hnonneg, hwait]
      rfl)
    rfl

theorem batch_foldl (outcome : Member → Option ℕ) (members : List Member)
    (acc : ℕ × Finset ℕ) :
    members.foldl (batch_step outcome) acc =
      (acc.1 + (members.countP fun m => (outcome m).isNone),
        acc.2 ∪ (members.filterMap outcome).toFinset) := by
  induction members generalizing acc with
  | nil => simp
  | cons x xs ih =>
    simp only [List.foldl_cons]
    rw [ih]
    unfold batch_step
    rcases ho : outcome x with - | code
    · simp only [ho]
      have hc : (List.countP (fun m => (outcome m).isNone) (x :: xs)) =
          (List.countP (fun m => (outcome m).isNone) xs) + 1 := by
        simp [List.countP_cons, ho]
      rw [List.filterMap_cons_none ho, hc, Prod.mk.injEq]
      exact ⟨by omega, rfl⟩
    · simp only [ho]
      have hc : (List.countP (fun m => (outcome m).isNone) (x :: xs)) =
          (List.countP (fun m => (outcome m).isNone) xs) := by
        simp [List.countP_cons, ho]
      rw [List.filterMap_cons_some ho, hc, Prod.mk.injEq]
      refine ⟨rfl, ?_⟩
      rw [List.toFinset_cons, Finset.union_insert, Finset.insert_union]

theorem countP_isNone_add_isSome (outcome : Member → Option ℕ)
    (l : List Member) :
    (l.countP fun m => (outcome m).isNone) +
      (l.countP fun m => (outcome m).isSome) = l.length := by
  induction l with
  | nil => simp
  | cons x xs ih =>
    rcases h : outcome x with - | c <;> simp [List.countP_cons, h] <;> omega

/-- Claim C5: both batch executors attempt each member independently and
never abort: the result is the count of members whose request succeeded
together with the set of distinct failure codes observed, successes plus
failures always account for the whole batch, and a concrete batch of 5
members with 2 failures sharing the status 403 yields success count 3 and
a one-element failure-code set. -/
theorem batch_executor_aggregates (members : List Member)
    (outcome : Member → Option ℕ) :
    kick_members members outcome =
      ((members.countP fun m => (outcome m).isNone),
        (members.filterMap outcome).toFinset) ∧
    give_role members outcome =
      ((members.countP fun m => (outcome m).isNone),
        (members.filterMap outcome).toFinset) ∧
    (kick_members members outcome).1 +
      (members.countP fun m => (outcome m).isSome) = members.length ∧
    kick_members
      [⟨1, false, some 0, ∅⟩, ⟨2, false, some 0, ∅⟩, ⟨3, false, some 0, ∅⟩,
        ⟨4, false, some 0, ∅⟩, ⟨5, false, some 0, ∅⟩]
      (fun m => if m.id = 4 ∨ m.id = 5 then some 403 else none) =
      (3, {403}) := by
  have hk : kick_members members outcome =
      ((members.countP fun m => (outcome m).isNone),
        (members.filterMap outcome).toFinset) := by
    rw [kick_members, batch_foldl]
    simp
  refine ⟨hk, ?_, ?_, by decide⟩
  · rw [give_role, batch_foldl]
    simp
  · rw [hk]
    exact countP_isNone_add_isSome outcome members

/-- Claim C4: in a reconciliation cycle the confirmation gate is invoked
iff the removal batch is non-empty; the kick batch is executed iff the
gate's decision permits it (AutoApproved or HumanApproved); a denial or
timeout vetoes execution and is reported as a normal "not authorized"
outcome rather than an error. -/
theorem update_cycle_gate (ms : List Member) (now : ℤ) (uR dR N : ℕ)
    (threshold : ℚ) (promptId : ℕ) (events : List Reaction)
    (roleOutcome kickOutcome : Member → Option ℕ) (r : CycleReport)
    (hr : update_unverified_members ms now uR dR N threshold promptId events
      roleOutcome kickOutcome = some r) :
    (r.gateInvoked = true ↔ (check_members ms now uR dR).2 ≠ ∅) ∧
    ((check_members ms now uR dR).2 = ∅ →
      r.kicksExecuted = false ∧ r.kickReport = .noUsers) ∧
    (∀ g, (check_members ms now uR dR).2 ≠ ∅ →
      verify_kick (check_members ms now uR dR).2.card N threshold promptId
        events = some g →
      r.kicksExecuted = g.decision.permitted ∧
      (g.decision.permitted = false →
        r.kickReport = .notAuthorized (check_members ms now uR dR).2.card)) ∧
    (∀ d : ConfirmationDecision,
      d.permitted = true ↔ (d = .AutoApproved ∨ d = .HumanApproved)) := by
  have hperm : ∀ d : ConfirmationDecision,
      d.permitted = true ↔ (d = .AutoApproved ∨ d = .HumanApproved) := by
    intro d
    cases d <;> simp [ConfirmationDecision.permitted]
  simp only [update_unverified_members] at hr
  by_cases hk : (check_members ms now uR dR).2 = ∅
  · rw [if_pos hk] at hr
    injection hr with hr
    subst hr
    refine ⟨by simp [hk], fun _ => ⟨rfl, rfl⟩, ?_, hperm⟩
    intro g hne _
    exact absurd hk hne
  · rw [if_neg hk] at hr
    rcases hv : verify_kick (check_members ms now uR dR).2.card N threshold
        promptId events with - | g₀ <;> rw [hv] at hr <;> dsimp only at hr
    · exact Option.noConfusion hr
    · by_cases hp : g₀.decision.permitted
      · rw [if_pos hp] at hr
        injection hr with hr
        subst hr
        refine ⟨by simp [hk], fun h => absurd h hk, ?_, hperm⟩
        intro g _ hvg
        injection hvg with hvg
        subst hvg
        exact ⟨hp.symm, fun hfalse => by rw [hp] at hfalse; cases hfalse⟩
      · rw [if_neg hp] at hr
        injection hr with hr
        subst hr
        have hp' : g₀.decision.permitted = false := by
          revert hp
          cases g₀.decision.permitted <;> simp
        refine ⟨by simp [hk], fun h => absurd h hk, ?_, hperm⟩
        intro g _ hvg
        injection hvg with hvg
        subst hvg
        exact ⟨hp'.symm, fun _ => rfl⟩

/-- Witness for C4 at a concrete input: a single member 30 days and one
second overdue, a guild of 10 members and the default threshold of 0 with
no reaction arriving — the gate is invoked (times out) and the report is
"not authorized". -/
theorem update_cycle_gate_witness :
    ((⟨true, false, .notAuthorized 1, none⟩ : CycleReport).gateInvoked = true ↔
      (check_members [(⟨1, false, some 0, {2}⟩ : Member)] 2592001 1 2).2 ≠ ∅) :=
  (update_cycle_gate [⟨1, false, some 0, {2}⟩] 2592001 1 2 10
    KICK_CONFIRMATION_THRESHOLD 99 [] (fun _ => none) (fun _ => none)
    ⟨true, false, .notAuthorized 1, none⟩
    (by
      have hv : verify_kick 1 10 KICK_CONFIRMATION_THRESHOLD 99 [] =
          some ⟨.TimedOut, true, true, false⟩ := by
        have hnonneg : ¬((1 : ℕ) : ℚ) / ((10 : ℕ) : ℚ) <
            KICK_CONFIRMATION_THRESHOLD := by
          rw [KICK_CONFIRMATION_THRESHOLD]
          norm_num
        rw [verify_kick, if_neg (by norm_num : (10 : ℕ) ≠ 0), if_neg hnonneg]
        rfl
      have hck : check_members [(⟨1, false, some 0, {2}⟩ : Member)] 2592001 1 2 =
          (∅, {⟨1, false, some 0, {2}⟩}) := by decide
      simp only [update_unverified_members, hck]
      rw [if_neg (show ¬({(⟨1, false, some 0, {2}⟩ : Member)} : Finset Member) = ∅
        by decide)]
      rw [Finset.card_singleton, hv]
      rfl)).1

/-- Claim C6: one reminder fire deletes the previously recorded notice
first (attempted even when it will fail, and a failed delete never blocks
the send), then sends the new notice, and overwrites the stored id only
after a successful send — a failed send leaves the previously stored id in
the store and writes nothing. -/
theorem ping_unverified_protocol (store : Option ℕ) (deleteOk : Bool)
    (sendResult : Option ℕ) :
    PingAction.sendReminder ∈ (ping_unverified store deleteOk sendResult).2 ∧
    (∀ prev, store = some prev →
      ((ping_unverified store deleteOk sendResult).2).head? =
        some (.deleteAttempt prev deleteOk)) ∧
    (store = none →
      ((ping_unverified store deleteOk sendResult).2).head? =
        some .sendReminder) ∧
    (sendResult = none →
      (ping_unverified store deleteOk sendResult).1 = store ∧
      ∀ i, PingAction.storeSet i ∉ (ping_unverified store deleteOk sendResult).2) ∧
    (∀ newId, sendResult = some newId →
      (ping_unverified store deleteOk sendResult).1 = some newId ∧
      ((ping_unverified store deleteOk sendResult).2).getLast? =
        some (.storeSet newId) ∧
      PingAction.sendReminder ∈
        ((ping_unverified store deleteOk sendResult).2).dropLast) := by
  rcases store with - | prev <;> rcases sendResult with - | newId <;>
    simp [ping_unverified]

/-- Witness for C6 at a concrete input: with id 5 stored, a failing delete
and a successful send of message 7, the store ends at 7 and the trace
starts with the delete attempt. -/
theorem ping_unverified_protocol_witness :
    (ping_unverified (some 5) false (some 7)).1 = some 7 ∧
    ((ping_unverified (some 5) false (some 7)).2).head? =
      some (.deleteAttempt 5 false) :=
  ⟨((ping_unverified_protocol (some 5) false (some 7)).2.2.2.2 7 rfl).1,
    (ping_unverified_protocol (some 5) false (some 7)).2.1 5 rfl⟩

/-- Claim C7: the initial reminder delay is 0 when no prior reminder id is
stored; with a stored id it is the reminder frequency minus the elapsed
time since the id's derived creation time, clamped at zero — an id created
one hour short of the frequency ago yields one hour, an id older than the
frequency yields zero. -/
theorem before_first_ping_delay_correct (id : ℕ) (now : ℚ) :
    before_first_ping_delay none now = 0 ∧
    before_first_ping_delay (some id) now =
      max (REMINDER_FREQUENCY * 3600 - (now - snowflake_time id)) 0 ∧
    (now - snowflake_time id = REMINDER_FREQUENCY * 3600 - 3600 →
      before_first_ping_delay (some id) now = 3600) ∧
    (now - snowflake_time id ≥ REMINDER_FREQUENCY * 3600 →
      before_first_ping_delay (some id) now = 0) := by
  refine ⟨rfl, rfl, ?_, ?_⟩
  · intro h
    show max (REMINDER_FREQUENCY * 3600 - (now - snowflake_time id)) 0 = 3600
    rw [h]
    simp only [REMINDER_FREQUENCY]
    rw [show (28 : ℚ) * 3600 - ((28 : ℚ) * 3600 - 3600) = 3600 by ring]
    exact max_eq_left (by norm_num)
  · intro h
    show max (REMINDER_FREQUENCY * 3600 - (now - snowflake_time id)) 0 = 0
    exact max_eq_right (sub_nonpos.mpr h)

/-- Witness for C7 at a concrete input: message id 0 was created at second
1420070400; one hour before the 28-hour frequency elapses the delay is
exactly one hour (3600 seconds). -/
theorem before_first_ping_delay_witness :
    before_first_ping_delay (some 0) 1420167600 = 3600 :=
  (before_first_ping_delay_correct 0 1420167600).2.2.1
    (by norm_num [snowflake_time, REMINDER_FREQUENCY])

end Verification
